import Mathlib

/-!
Verification model of the triage-driven object resolution and object-stream
reconstruction pipeline of the PDFId service (src/pdf_id/pdf_id.py).

Python strings are modelled as lists of characters (`PyStr`), and the handful
of Python string operations and `re` patterns used by `PDFId.analyze_pdf`,
`PDFId.write_objstm`, `PDFId.analyze_objstm` and `PDFId.execute` are embedded
as executable Lean functions below.  External collaborators (the pdfid keyword
scanner, the pdf_parser structural parser, the indicator-of-compromise matcher
and the hashing library) are supplied as explicit environment parameters.
-/

namespace PdfIdModel

/-- A Python `str`, modelled as its list of characters (codepoints). -/
abbrev PyStr := List Char

/-- Coerce a Lean string literal into the `PyStr` model. -/
def pys (s : String) : PyStr := s.toList

/-- Python whitespace characters, as stripped by `str.strip()`. -/
def isPySpace (c : Char) : Bool :=
  c = ' ' || c = '\t' || c = '\n' || c = '\r' || c = '\x0b' || c = '\x0c'

/-- Python `s.startswith(pre)`. -/
def pyStartsWith (pre s : PyStr) : Bool := pre.isPrefixOf s

/-- Python `sub in s` (substring containment). -/
def isSubstr (sub : PyStr) : PyStr → Bool
  | [] => sub.isEmpty
  | c :: rest => sub.isPrefixOf (c :: rest) || isSubstr sub rest

/-- Split at the first occurrence of (non-empty) `sep`, returning the text
before and after it, or `none` when `sep` does not occur. -/
def splitFirst? (sep : PyStr) : PyStr → Option (PyStr × PyStr)
  | [] => none
  | c :: rest =>
    if sep.isPrefixOf (c :: rest) then some ([], (c :: rest).drop sep.length)
    else (splitFirst? sep rest).map (fun pr => (c :: pr.1, pr.2))

/-- Python `s.split(sep, maxsplit)` for a non-empty separator. -/
def pySplitN (sep : PyStr) : Nat → PyStr → List PyStr
  | 0, s => [s]
  | n + 1, s =>
    match splitFirst? sep s with
    | none => [s]
    | some (a, b) => a :: pySplitN sep n b

/-- Python `s.split(sep)` (unlimited splits): a non-empty separator occurs at
most `s.length` times, so `s.length` splits suffice. -/
def pySplitAll (sep s : PyStr) : List PyStr := pySplitN sep s.length s

/-- Python `s.replace(old, new)` (all non-overlapping occurrences, leftmost
first), expressed as split-and-rejoin. -/
def pyReplace (old new s : PyStr) : PyStr := List.intercalate new (pySplitAll old s)

/-- Python `s.strip()`. -/
def pyStrip (s : PyStr) : PyStr :=
  ((s.dropWhile isPySpace).reverse.dropWhile isPySpace).reverse

/-- The text after the first occurrence of `sep`: Python `s.split(sep, 1)[1]`,
with `none` playing the role of the `IndexError` when `sep` is absent. -/
def afterFirst? (sep s : PyStr) : Option PyStr := (splitFirst? sep s).map (·.2)

/-! ### The regular expressions of `analyze_pdf`

`analyze_pdf` uses four patterns: the indirect-reference pattern
`[0-9]* [0-9]* R` (with `re.match` and `re.findall`), the reference-list
pattern `[s]?[ ]?\[([0-9]* [0-9]* R[ \\rn]{0,8})*\]` (`islist`), the
reference-with-instructions pattern
`[s]?[ \\']{0,3}\[[ ]?([0-9]* [0-9]* R)[ \\rn]{1,8}[/a-zA-Z0-9 ]*[ ]?\]`
(`withinst`), and the literal bracket-removal `[\[\]]`.  They are embedded
directly as matchers; backtracking choice points are explored in Python's
preference order (greedy, leftmost alternative first). -/

/-- Match `[0-9]* [0-9]* R` at the start of `s`, returning the matched text
and the remainder.  The digit runs are maximal-munch: `[0-9]` cannot match the
following literal space, so no backtracking is possible. -/
def refMatchRest? (s : PyStr) : Option (PyStr × PyStr) :=
  let d1 := s.takeWhile Char.isDigit
  match s.dropWhile Char.isDigit with
  | ' ' :: r2 =>
    let d2 := r2.takeWhile Char.isDigit
    match r2.dropWhile Char.isDigit with
    | ' ' :: 'R' :: r4 => some (d1 ++ ' ' :: (d2 ++ [' ', 'R']), r4)
    | _ => none
  | _ => none

/-- Python `re.match("[0-9]* [0-9]* R", s)` truthiness. -/
def refMatches (s : PyStr) : Bool := (refMatchRest? s).isSome

/-- Worker for `refFindall`.  Every step consumes at least one character (a
match of the reference pattern is at least 3 characters long), so a fuel of
`s.length + 1` never runs out before the scan finishes. -/
def refFindallGo : Nat → PyStr → List PyStr
  | 0, _ => []
  | _, [] => []
  | fuel + 1, c :: rest =>
    match refMatchRest? (c :: rest) with
    | some (m, t) => m :: refFindallGo fuel t
    | none => refFindallGo fuel rest

/-- Python `re.findall("[0-9]* [0-9]* R", s)`: non-overlapping leftmost
matches. -/
def refFindall (s : PyStr) : List PyStr := refFindallGo (s.length + 1) s

/-- The character class `[ \\rn]` (space, backslash, letter r, letter n). -/
def isRefSep (c : Char) : Bool := c = ' ' || c = '\\' || c = 'r' || c = 'n'

/-- The character class `[/a-zA-Z0-9 ]`. -/
def isInstrChar (c : Char) : Bool := c = '/' || c.isAlpha || c.isDigit || c = ' '

/-- The character class `[ \\']` (space, backslash, apostrophe). -/
def isQuoteSep (c : Char) : Bool := c = ' ' || c = '\\' || c = Char.ofNat 39

/-- Remainders after consuming between `lo` and `hi` characters of class
`cls`, longest consumption first (Python's greedy `{lo,hi}` preference). -/
def clsRests (cls : Char → Bool) (lo hi : Nat) (s : PyStr) : List PyStr :=
  let maxTake := min hi (s.takeWhile cls).length
  if maxTake < lo then []
  else (List.range (maxTake + 1 - lo)).map (fun i => s.drop (maxTake - i))

/-- Remainders after an optional greedy single character `c` (`c?`),
consumed-first preference order. -/
def optTake (c : Char) : PyStr → List PyStr
  | [] => [[]]
  | d :: rest => if d = c then [rest, d :: rest] else [d :: rest]

/-- Remainders after matching `([0-9]* [0-9]* R[ \\rn]{0,8})*` greedily at the
start of `s`, in Python's backtracking preference order (iterate first, each
iteration's `{0,8}` longest first, stop last).  Each iteration consumes at
least the 3 characters of the reference pattern, so a fuel of `s.length + 1`
always outlasts the recursion. -/
def starRests : Nat → PyStr → List PyStr
  | 0, s => [s]
  | fuel + 1, s =>
    match refMatchRest? s with
    | none => [s]
    | some (_, t) =>
      ((clsRests isRefSep 0 8 t).flatMap (starRests fuel)) ++ [s]

/-- Python `re.match(r"[s]?[ ]?\[([0-9]* [0-9]* R[ \\rn]{0,8})*\]", s)`:
the whole matched text (`group(0)`) of the preferred match, if any. -/
def islistMatch? (content : PyStr) : Option PyStr :=
  let cands :=
    (optTake 's' content).flatMap (fun s1 =>
      (optTake ' ' s1).flatMap (fun s2 =>
        match s2 with
        | '[' :: s3 =>
          (starRests (s3.length + 1) s3).filterMap (fun r =>
            match r with
            | ']' :: r' => some r'
            | _ => none)
        | _ => []))
  (cands.head?).map (fun rest => content.take (content.length - rest.length))

/-- Python
`re.match(r"[s]?[ \\']{0,3}\[[ ]?([0-9]* [0-9]* R)[ \rn]{1,8}[/a-zA-Z0-9 ]*[ ]?\]", s)`,
returning `group(1)` (the reference) of the preferred match, if any.  The
trailing `[/a-zA-Z0-9 ]*[ ]?` is taken maximal-munch: `]` is outside the
class, so giving characters back can only re-reach the same `]` through the
optional space (when the returned character is a space followed by `]`, the
maximal munch already stopped directly in front of that `]`), hence shorter
munches accept exactly when the maximal one does and the preferred match is
the maximal one. -/
def withinstGroup1? (content : PyStr) : Option PyStr :=
  let cands :=
    (optTake 's' content).flatMap (fun s1 =>
      (clsRests isQuoteSep 0 3 s1).flatMap (fun s2 =>
        match s2 with
        | '[' :: s3 =>
          (optTake ' ' s3).flatMap (fun s4 =>
            match refMatchRest? s4 with
            | some (g1, s5) =>
              (clsRests isRefSep 1 8 s5).filterMap (fun s6 =>
                match s6.dropWhile isInstrChar with
                | ']' :: _ => some g1
                | _ => none)
            | none => [])
        | _ => []))
  cands.head?

/-- Python `re.sub(r"[\[\]]", "", s)`: remove all square brackets. -/
def removeBrackets (s : PyStr) : PyStr := s.filter (fun c => !(c = '[' || c = ']'))

/-! ### The triage loop of `analyze_pdf` (pdf_id.py lines 267-425)

State mutated by the loop: `carved_content` (an insertion-ordered dict from
object number to a list of keyword/content pairs), `obj_extract_triage` and
`jbig_objs` (sets, modelled as duplicate-free lists in insertion order).
The error-list aggregation into `all_errors` has no effect on these three
accumulators and is omitted, except for the one place where it changes
control flow: `errors.add(e)` on line 404 is an `AttributeError` on a list
(section 6 of the spec gives the parser's error channel as a list of
strings), which is caught by the `except` on line 405. -/

/-- Accumulator state of the triage loop. -/
structure TriState where
  carved : List (PyStr × List (PyStr × PyStr))
  extract : List PyStr
  jbig : List PyStr
deriving DecidableEq, Repr

/-- Python `set.add`: appending keeps the model deterministic; membership is
what the code observes. -/
def insSet (x : PyStr) (l : List PyStr) : List PyStr := if x ∈ l then l else l ++ [x]

/-- Lines 394-399 / 422-425: append `(keyword, text)` to the carved-content
entry of `objnum`, creating the entry when absent. -/
def carveAppend (objnum kw text : PyStr) (m : List (PyStr × List (PyStr × PyStr))) :
    List (PyStr × List (PyStr × PyStr)) :=
  if m.any (fun kv => kv.1 = objnum) then
    m.map (fun kv => if kv.1 = objnum then (kv.1, kv.2 ++ [(kw, text)]) else kv)
  else m ++ [(objnum, [(kw, text)])]

/-- Lines 325/377/393/408/416: `p.split("\n", 1)[0].split(" ")[1]`, with
`none` for the `IndexError` when the first line has no space. -/
def objnumOf? (p : PyStr) : Option PyStr :=
  (pySplitAll (pys " ") ((pySplitN (pys "\n") 1 p).headD [])).get? 1

/-- One object report of a `pdf_parser` sub-query (`parts` entry plus the
`obj_details` side channel of the same response). -/
structure SubResp where
  parts : List PyStr
  objDetails : PyStr
deriving DecidableEq

/-- Environment answering the per-object sub-queries issued on line 367:
the `pdf_parser` result (`none` when `get_pdf_parser` swallowed an exception
and returned `None`) together with the returned error list. -/
def ObjEnv := PyStr → Option SubResp × List PyStr

/-- Lines 370-401, body for one sub-report `q`.  Returns the updated state
and whether an exception escaped (to be caught by line 405); state changes
made before the exception persist, as the Python accumulators are mutated in
place. -/
def processSubPart (kw details : PyStr) (st : TriState) (q : PyStr) : TriState × Bool :=
  match (pySplitN (pys "\n") 3 q).get? 2 with
  | none => (st, true)
  | some l2 =>
    let subrefs := pySplitAll (pys ", ") (pyStrip (pyReplace (pys "Referencing:") [] l2))
    match (pySplitN (pys "\n") 2 q).get? 1 with
    | none => (st, true)
    | some l1 =>
      let ptyp := pyReplace (pys "/") [] (pyStrip (pyReplace (pys "Type:") [] l1))
      if isSubstr (pys "Contains stream") q then
        match objnumOf? q with
        | some o => ({ st with extract := insSet o st.extract }, false)
        | none => (st, false)
      else if subrefs.headD [] ≠ [] ∧ 1 ≤ subrefs.length ∧ ptyp = kw then
        (subrefs.foldl
          (fun s sr => { s with extract := insSet ((pySplitN (pys " ") 1 sr).headD []) s.extract })
          st, false)
      else if details ≠ [] then
        match objnumOf? q with
        | some o => ({ st with carved := carveAppend o kw details st.carved }, false)
        | none => (st, false)
      else (st, false)

/-- Fold of `processSubPart` over the sub-reports, stopping at the first
escaped exception. -/
def processSubParts (kw details : PyStr) (st : TriState) : List PyStr → TriState × Bool
  | [] => (st, false)
  | q :: rest =>
    match processSubPart kw details st q with
    | (st', true) => (st', true)
    | (st', false) => processSubParts kw details st' rest

/-- Lines 406-410 (`except` handler): extract the original object of report
`p`; a failure to parse its object number is passed over. -/
def fallbackExtract (p : PyStr) (st : TriState) : TriState :=
  match objnumOf? p with
  | some o => { st with extract := insSet o st.extract }
  | none => st

/-- Lines 356-425, body for one content item `c` of report `p`.  `none`
models an uncaught exception (lines 416/418 sit outside every `try`). -/
def processItem (tkeys : List PyStr) (kw : PyStr) (env : ObjEnv)
    (p : PyStr) (references : List PyStr) (st : TriState) (c : PyStr) : Option TriState :=
  if (pys "JS") ∈ tkeys ∧ kw = pys "JavaScript" ∧ isSubstr (pys "/JS") (c.take 5) = true then
    some st
  else if c ∈ references ∨ refMatches c = true then
    let pr := env ((pySplitN (pys " ") 1 c).headD [])
    let stepped :=
      match pr.1 with
      | none => (st, false)
      | some sr => processSubParts kw sr.objDetails st sr.parts
    if stepped.2 || !pr.2.isEmpty then some (fallbackExtract p stepped.1)
    else some stepped.1
  else if pyStartsWith (pys "trailer:") p then some st
  else
    match objnumOf? p with
    | none => none
    | some objnum =>
      match (pySplitN (pys "\n") 4 p).get? 3 with
      | none => none
      | some seg =>
        if seg = pys "Contains stream" then
          some { st with extract := insSet objnum st.extract }
        else
          some { st with carved := carveAppend objnum kw c st.carved }

/-- Lines 287-295 (trailer reports): content and references extraction;
`none` models the `except: continue` (unreachable once the keyword guard
holds, but kept for shape). -/
def trailerContent (kw p : PyStr) : Option (PyStr × List PyStr) :=
  if isSubstr ((pys "/") ++ kw) p then
    match afterFirst? kw p with
    | some a =>
      let content := pyStrip ((pySplitN (pys "/") 1 (pyReplace (pys ">>++>>") [] a)).headD [])
      some (content, refFindall content)
    | none => none
  else some ([], [])

/-- Line 308: `p.split("\n", 3)[3]` with the `except` falling back to `p`. -/
def tailOrSelf (p : PyStr) : PyStr :=
  match (pySplitN (pys "\n") 3 p).get? 3 with
  | some x => x
  | none => p

/-- Lines 297-321 (object reports): content and references extraction.  The
single leading `re.sub("/{}[ ]*".format(keyword), "", content, 1)` is taken
at position 0, which under the `content.startswith` guard is where the first
match sits; the embedding covers keywords free of regex metacharacters. -/
def refngContent (kw p : PyStr) : PyStr × List PyStr :=
  let content0 :=
    if isSubstr (pys ">>++>>") p then
      match afterFirst? kw p with
      | some a => pyStrip (pyReplace (pys ">>++>>") [] a)
      | none => tailOrSelf p
    else tailOrSelf p
  let content1 :=
    if pyStartsWith ((pys "/") ++ kw) content0 then
      (content0.drop (kw.length + 1)).dropWhile (fun c => c = ' ')
    else content0
  let refs :=
    match (pySplitN (pys "\n") 3 p).get? 2 with
    | some l2 => pySplitAll (pys ", ") (pyStrip (pyReplace (pys "Referencing:") [] l2))
    | none => []
  (content1, refs)

/-- Lines 341-355: turn the extracted content into the list iterated by the
`for c in content` loop. -/
def listify (content : PyStr) : List PyStr :=
  match islistMatch? content with
  | some g0 =>
    pySplitAll (pys ",")
      (removeBrackets (pyReplace (pys "R ") (pys "R,") (pyReplace (pys "s ") [] g0)))
  | none =>
    match withinstGroup1? content with
    | some g1 => [g1]
    | none => [content]

/-- Fold in the `Option` monad; `none` aborts the whole analysis (an uncaught
exception). -/
def foldOpt {σ α : Type} (f : σ → α → Option σ) : σ → List α → Option σ
  | s, [] => some s
  | s, a :: rest =>
    match f s a with
    | none => none
    | some s' => foldOpt f s' rest

/-- Lines 283-425, body for one report `p` of the keyword search. -/
def processPart (deep : Bool) (tkeys : List PyStr) (kw : PyStr) (env : ObjEnv)
    (st : TriState) (p : PyStr) : Option TriState :=
  let cr? :=
    if pyStartsWith (pys "trailer:") p then trailerContent kw p
    else if isSubstr (pys "Referencing:") p then some (refngContent kw p)
    else some (([] : PyStr), ([] : List PyStr))
  match cr? with
  | none => some st
  | some (content, references) =>
    if kw = pys "JBIG2Decode" ∧ isSubstr (pys "/Filter") p = true ∧
        isSubstr (pys "Contains stream") p = true then
      match objnumOf? p with
      | some o =>
        some { st with
                extract := if deep then insSet o st.extract else st.extract,
                jbig := insSet o st.jbig }
      | none => some st
    else
      let cl? : Option (List PyStr) :=
        if content = [] then (if references ≠ [] then some references else none)
        else some (listify content)
      match cl? with
      | none => some st
      | some cl => foldOpt (processItem tkeys kw env p references) st cl

/-- The external query environment of one `analyze_pdf` invocation: the
keyword-search responses (line 280) and the per-object sub-query responses
(line 367). -/
structure Env where
  search : PyStr → Option (List PyStr)
  obj : ObjEnv

/-- Lines 272-281: one keyword of the triage loop (`/ObjStm` is handled
separately; a search query answered with `None` contributes nothing). -/
def processKeyword (deep : Bool) (tkeys : List PyStr) (env : Env)
    (st : TriState) (kw : PyStr) : Option TriState :=
  if kw = pys "ObjStm" then some st
  else
    match env.search kw with
    | none => some st
    | some parts => foldOpt (processPart deep tkeys kw env.obj) st parts

/-- Lines 267-428: the whole triage loop over the flagged keywords (Python
iterates the `triage_keywords` set in an arbitrary order; the model takes
the order as the list `tkeys`). -/
def triageRun (deep : Bool) (tkeys : List PyStr) (env : Env) : Option TriState :=
  foldOpt (processKeyword deep tkeys env) ⟨[], [], []⟩ tkeys

/-- Object numbers carrying carved content in the result of a run. -/
def carvedKeysOfRun (r : Option TriState) : List PyStr :=
  match r with
  | some st => st.carved.map (·.1)
  | none => []

/-- Extraction set in the result of a run. -/
def extractOfRun (r : Option TriState) : List PyStr :=
  match r with
  | some st => st.extract
  | none => []

/-- Line 539: `obj_to_extract = obj_extract_triage - embed_extracted -
jbig_objs`, the set actually passed to the extraction dump. -/
def objToExtract (extr embed jb : List PyStr) : List PyStr :=
  extr.filter (fun o => o ∉ embed ∧ o ∉ jb)

/-! ### The content disposition engine (pdf_id.py lines 443-484)

`con.encode()` is the UTF-8 encoding of the carved text; SHA-256 hex digests
and indicator-of-compromise matching are external libraries, passed in as
function parameters (`shaHex`, `ioc`). -/

/-- UTF-8 encoding of one codepoint. -/
def utf8EncodeChar (c : Char) : List Nat :=
  let n := c.toNat
  if n < 128 then [n]
  else if n < 2048 then [192 + n / 64, 128 + n % 64]
  else if n < 65536 then [224 + n / 4096, 128 + (n / 64) % 64, 128 + n % 64]
  else [240 + n / 262144, 128 + (n / 4096) % 64, 128 + (n / 64) % 64, 128 + n % 64]

/-- Python `s.encode()`: the UTF-8 bytes of the string. -/
def utf8Encode (s : PyStr) : List Nat := (s.map utf8EncodeChar).flatten

/-- One inline report of the disposition loop: object number, keyword,
content, and the output of the external indicator-of-compromise matcher on
the content bytes (lines 452-469). -/
structure InlineRec where
  objnum : PyStr
  keyword : PyStr
  content : PyStr
  tags : List (PyStr × List PyStr)
deriving DecidableEq

/-- Accumulators of the disposition loop: `carved_extracted_shas` (line 82),
the artifact files written (name and bytes, lines 479-482), and the inline
reports. -/
structure DispState where
  shas : List PyStr
  artifacts : List (PyStr × List Nat)
  inlined : List InlineRec
deriving DecidableEq

/-- Line 474: `"carved_content_obj_{}_{}".format(k, crv_sha[0:7])`. -/
def artifactName (k sha : PyStr) : PyStr :=
  pys "carved_content_obj_" ++ k ++ pys "_" ++ sha.take 7

/-- Lines 446-484, body for one carved `(objnum, keyword, content)` entry.
The branch on line 452 tests `len(con)` - the number of characters of the
carved string, not of its encoded bytes. -/
def dispStep (shaHex : List Nat → PyStr) (ioc : List Nat → List (PyStr × List PyStr))
    (st : DispState) (e : PyStr × PyStr × PyStr) : DispState :=
  if e.2.2.length < 500 then
    { st with inlined := st.inlined ++ [⟨e.1, e.2.1, e.2.2, ioc (utf8Encode e.2.2)⟩] }
  else if shaHex (utf8Encode e.2.2) ∈ st.shas then st
  else
    { st with
        shas := st.shas ++ [shaHex (utf8Encode e.2.2)],
        artifacts := st.artifacts ++ [(artifactName e.1 (shaHex (utf8Encode e.2.2)), utf8Encode e.2.2)] }

/-- The disposition loop over the flattened carved entries, in iteration
order. -/
def dispRun (shaHex : List Nat → PyStr) (ioc : List Nat → List (PyStr × List PyStr))
    (entries : List (PyStr × PyStr × PyStr)) : DispState :=
  entries.foldl (dispStep shaHex ioc) ⟨[], [], []⟩

/-- Number of occurrences of the digest `d` in a digest list. -/
def cntEq (l : List PyStr) (d : PyStr) : Nat := (l.filter (fun x => x = d)).length

/-- Number of artifact entries holding exactly the bytes `b`. -/
def cntBytes (l : List (PyStr × List Nat)) (b : List Nat) : Nat :=
  (l.filter (fun a => a.2 = b)).length

/-- Number of artifact files holding exactly the bytes `b`. -/
def countArtifacts (st : DispState) (b : List Nat) : Nat := cntBytes st.artifacts b

/-- Number of recorded digests equal to `d`. -/
def countShas (st : DispState) (d : PyStr) : Nat := cntEq st.shas d

/-! ### `write_objstm` and `analyze_objstm` (pdf_id.py lines 608-720)

Only the returned file path of `write_objstm` is modelled: the in-place
rewrite of the dumped buffer (header/trailer/object wrappers) changes the
file's bytes, not the returned value or the driver's control flow.  The
response to the raw-dump query on line 632 is the environment value. -/

/-- A `pdf_parser` response as consumed by `write_objstm`: the `parts`
blocks and the `files` category map (`None`/missing modelled as `[]`). -/
structure WResp where
  parts : List PyStr
  files : List (PyStr × List PyStr)
deriving DecidableEq

/-- Lines 635-637 of `write_objstm`: the `stream_present` scan over the
sub-reports; `none` is an uncaught `IndexError` from
`sub_p.split("\n", 4)[3]` on line 636. -/
def streamFlag (parts : List PyStr) : Option Bool :=
  foldOpt
    (fun b q =>
      match (pySplitN (pys "\n") 4 q).get? 3 with
      | none => none
      | some seg => some (b || seg = pys "Contains stream"))
    false parts

/-- Lines 608-672: the returned path of `write_objstm` (see `WResp`). -/
def writeObjstm (subres : Option WResp) : Option (Option PyStr) :=
  match subres with
  | none => some none
  | some r =>
    match streamFlag r.parts with
    | none => none
    | some false => some none
    | some true =>
      if r.files = [] then some none
      else
        some (r.files.foldl
          (fun acc kv => if kv.1 = pys "embedded" ∧ kv.2 ≠ [] then kv.2.head? else acc)
          none)

/-- Accumulators of `analyze_objstm`: `objstm_extracted`, `obj_files`, and
the successful reconstruction events `(container object number, file)` in
order (instrumentation derived from the two set insertions on lines
717-718). -/
structure OState where
  extracted : List PyStr
  files : List PyStr
  events : List (PyStr × PyStr)
deriving DecidableEq, Repr

/-- Python string comparison (lexicographic by codepoint), as used by
`sorted(parts)` on line 708. -/
def lexLe : PyStr → PyStr → Bool
  | [], _ => true
  | _ :: _, [] => false
  | a :: as_, b :: bs => if a = b then lexLe as_ bs else decide (a < b)

/-- Lines 708-718, body for one structural-parser part `p`.  `none` is the
uncaught `IndexError` of the object-number split on line 710. -/
def objstmStep (wenv : PyStr → Option WResp) (st : OState) (p : PyStr) : Option OState :=
  if isSubstr (pys "Type: /ObjStm") p then
    match objnumOf? p with
    | none => none
    | some getobj =>
      if getobj ∈ st.extracted then some st
      else
        match writeObjstm (wenv getobj) with
        | none => none
        | some none => some st
        | some (some f) =>
          some { extracted := insSet getobj st.extracted,
                 files := insSet f st.files,
                 events := st.events ++ [(getobj, f)] }
  else some st

/-- Lines 689-693: the container cap requested from the parser. -/
def maxObst (deep : Bool) : Nat := if deep then 100 else 1

/-- Lines 685-720: `analyze_objstm` over the parts of the initial
`elements i / type /ObjStm / max_objstm` query (`none` when that query
returned `None` or had no `parts`), with `wenv` answering the per-container
raw-dump queries of `write_objstm`. -/
def analyzeObjstm (initParts : Option (List PyStr)) (wenv : PyStr → Option WResp) :
    Option OState :=
  match initParts with
  | none => some ⟨[], [], []⟩
  | some parts0 =>
    foldOpt (objstmStep wenv) ⟨[], [], []⟩
      (parts0.insertionSort (fun a b => lexLe a b = true))

/-- Modelled from the spec: the external structural parser (pdf_parser, a
repository module that is not under src/) honors the `max_objstm` /
`maxContainers` request field of section 6, answering the line-700 query
with at most that many compressed-object-container reports.  (The in-source
comment on line 693 hints the real parser may return one extra.) -/
def ParserHonorsCap (maxC : Nat) (parts : List PyStr) : Prop :=
  (parts.filter (fun p => isSubstr (pys "Type: /ObjStm") p)).length ≤ maxC

/-! ### `execute` (pdf_id.py lines 722-769) -/

/-- Outcome of `execute`: either the analysis ran (recursing into the listed
reconstructed documents) or the file was skipped as too big (lines
766-769). -/
inductive ExecOutcome
  | analyzed (recursed : List PyStr)
  | skippedTooBig
deriving DecidableEq, Repr

/-- External inputs of one `execute` call: whether the PDFId flags reported
`/ObjStm` (line 128-129), and the parser responses driving
`analyze_objstm`. -/
structure ExecEnv where
  containsObjstms : Bool
  objstmParts : Option (List PyStr)
  wenv : PyStr → Option WResp

/-- Line 724: `self.config.get('MAX_PDF_SIZE', 3000000)`. -/
def defaultMaxPdfSize : Nat := 3000000

/-- Lines 722-769: the size gate (line 726) and the recursion over
reconstructed object-stream documents (lines 744-758). -/
def executeRun (maxSize fileSize : Nat) (deep : Bool) (env : ExecEnv) : Option ExecOutcome :=
  if fileSize < maxSize || deep then
    if env.containsObjstms then
      match analyzeObjstm env.objstmParts env.wenv with
      | none => none
      | some ost => some (ExecOutcome.analyzed ost.files)
    else some (ExecOutcome.analyzed [])
  else some ExecOutcome.skippedTooBig

/-! ### Concrete inputs used by the theorems below -/

/-- A degenerate digest function (the theorems about deduplication hold for
every digest function; concrete instances use this one). -/
def shaHexConst : List Nat → PyStr := fun _ => pys "d"

/-- A matcher reporting no indicator-of-compromise hits. -/
def iocNone : List Nat → List (PyStr × List PyStr) := fun _ => []

/-- An object environment whose every sub-query fails (`get_pdf_parser`
returns `None` after swallowing the exception). -/
def objEnvTrivial : ObjEnv := fun _ => (none, [])

/-- Keyword report: object 5, no stream, literal content. -/
def pA : PyStr := pys "obj 5 0\nType:\nReferencing:\n/Blah sometext"

/-- Keyword report: object 9 referencing `7 0 R`, content a bare reference. -/
def pB : PyStr := pys "obj 9 0\nType: /Foo\nReferencing: 7 0 R\n7 0 R"

/-- Sub-report for object 7: type `/AcroForm`, no stream, referencing
objects 5 and 6. -/
def sub7 : PyStr := pys "obj 7 0\nType: /AcroForm\nReferencing: 5 0 R, 6 0 R\nblah"

/-- Keyword order for the extraction/carve mutual-exclusion scenario. -/
def tkeysC3 : List PyStr := [pys "OpenAction", pys "AcroForm"]

/-- Environment for the extraction/carve mutual-exclusion scenario: under
`/OpenAction` object 5 is carved; under `/AcroForm` the reference resolves to
object 7 whose type matches, extracting its references 5 and 6. -/
def envC3 : Env :=
  { search := fun k =>
      if k = pys "OpenAction" then some [pA]
      else if k = pys "AcroForm" then some [pB] else none,
    obj := fun o =>
      if o = pys "7" then (some ⟨[sub7], pys "detail"⟩, []) else (none, []) }

/-- A sub-report with a `Contains stream` marker (used to exercise the
stream branch of `processSubPart`). -/
def qStream : PyStr := pys "obj 7 0\nType:\nReferencing:\nContains stream"

/-- A keyword report matched under `/JBIG2Decode` that carries `/Filter` but
no `Contains stream` marker. -/
def pJ : PyStr := pys "obj 3 0\nType: /Foo\nReferencing:\n/Filter /JBIG2Decode code"

/-- Environment for the unguarded-JBIG2Decode scenario. -/
def envC6 : Env :=
  { search := fun k => if k = pys "JBIG2Decode" then some [pJ] else none,
    obj := objEnvTrivial }

/-- A keyword report matched under `/JBIG2Decode` with both `/Filter` and
`Contains stream` markers (the guarded case). -/
def pJg : PyStr := pys "obj 4 0\nType: /X\nReferencing:\n/Filter x\nContains stream"

/-- Environment for the lost-reference scenario: the sub-query for object 7
fails (`None` result, empty error list). -/
def envC7 : Env :=
  { search := fun k => if k = pys "AcroForm" then some [pB] else none,
    obj := objEnvTrivial }

/-- A sub-report too short to parse: `split("\n", 3)[2]` raises. -/
def qBad : PyStr := pys "garbage"

/-- Keyword report for the short-name JavaScript pass. -/
def p1js : PyStr := pys "obj 5 0\nType:\nReferencing:\n(code)"

/-- Keyword report for the long-name JavaScript pass; its content carries the
short-name prefix `/JS`. -/
def p2js : PyStr := pys "obj 5 0\nType:\nReferencing:\n/JS (code)"

/-- Keyword order for the JavaScript double-report scenario. -/
def tkeysC8 : List PyStr := [pys "JS", pys "JavaScript"]

/-- Environment for the JavaScript double-report scenario: both keywords
resolve to object 5, the long-name content starting with `/JS`. -/
def envC8 : Env :=
  { search := fun k =>
      if k = pys "JS" then some [p1js]
      else if k = pys "JavaScript" then some [p2js] else none,
    obj := objEnvTrivial }

/-- Carved text of 500 ASCII characters. -/
def longA : PyStr := List.replicate 500 'a'

/-- Carved text of 250 two-byte characters: 250 characters, 500 encoded
bytes. -/
def wideB : PyStr := List.replicate 250 (Char.ofNat 233)

/-- Raw-dump response without any stream-marked part. -/
def rNoStream : WResp :=
  ⟨[pys "obj 8 0\nType: /ObjStm\nReferencing:\nNo stream"], [(pys "embedded", [pys "f8"])]⟩

/-- Raw-dump response with a stream-marked part and one embedded file. -/
def rStream : WResp :=
  ⟨[pys "obj 8 0\nType: /ObjStm\nReferencing:\nContains stream"], [(pys "embedded", [pys "f8"])]⟩

/-- An `/ObjStm`-typed structural part for container object 8. -/
def part8 : PyStr := pys "obj 8 0\nType: /ObjStm\nReferencing:\nx"

/-- Raw-dump environment answering container 8 with `rStream`. -/
def wenv8 : PyStr → Option WResp := fun o => if o = pys "8" then some rStream else none

/-- Raw-dump environment answering container 8 with `rNoStream`. -/
def wenv8No : PyStr → Option WResp := fun o => if o = pys "8" then some rNoStream else none

/-- Trivial `execute` environment (no object streams flagged). -/
def execEnvTrivial : ExecEnv := ⟨false, none, fun _ => none⟩

/-! ## Claim C1 -/

set_option maxRecDepth 40000 in
/-- C1, counterexample.  The claim makes the carve disposition a pure
function of the length of the encoded bytes, with 500 encoded bytes producing
an artifact.  Carved text of 250 two-byte characters encodes to 500 bytes,
yet the disposition loop (which branches on `len(con)`, the character count,
line 452) reports it inline: no artifact, no digest, one inline entry. -/
theorem c1_counterexample :
    500 ≤ (utf8Encode wideB).length ∧
    (dispRun shaHexConst iocNone [(pys "1", pys "K", wideB)]).artifacts = [] ∧
    (dispRun shaHexConst iocNone [(pys "1", pys "K", wideB)]).shas = [] ∧
    (dispRun shaHexConst iocNone [(pys "1", pys "K", wideB)]).inlined.length = 1 := by
  decide

/-- C1, amended.  For every carved text value `c`, the disposition is a pure
function of the number of characters of `c` (Python `len(c)`), not of its
encoded byte count: fewer than 500 characters is reported inline and tagged
with the matcher output on the encoded bytes; at least 500 characters takes
the digest-and-artifact path over the encoded bytes; never both. -/
theorem c1_theorem (shaHex : List Nat → PyStr) (ioc : List Nat → List (PyStr × List PyStr))
    (st : DispState) (k kw con : PyStr) :
    ((dispStep shaHex ioc st (k, kw, con)).inlined ≠ st.inlined ↔ con.length < 500) ∧
    (con.length < 500 →
      (dispStep shaHex ioc st (k, kw, con)).artifacts = st.artifacts ∧
      (dispStep shaHex ioc st (k, kw, con)).shas = st.shas ∧
      (dispStep shaHex ioc st (k, kw, con)).inlined
        = st.inlined ++ [⟨k, kw, con, ioc (utf8Encode con)⟩]) ∧
    (500 ≤ con.length →
      (dispStep shaHex ioc st (k, kw, con)).inlined = st.inlined ∧
      shaHex (utf8Encode con) ∈ (dispStep shaHex ioc st (k, kw, con)).shas ∧
      (shaHex (utf8Encode con) ∉ st.shas →
        (dispStep shaHex ioc st (k, kw, con)).artifacts
          = st.artifacts ++ [(artifactName k (shaHex (utf8Encode con)), utf8Encode con)])) := by
  by_cases hlen : con.length < 500
  · refine ⟨?_, fun _ => ⟨?_, ?_, ?_⟩, fun h500 => absurd hlen (by omega)⟩
    · simp only [dispStep, if_pos hlen, hlen, iff_true]
      intro h
      have hh := congrArg List.length h
      simp at hh
    · simp [dispStep, if_pos hlen]
    · simp [dispStep, if_pos hlen]
    · simp [dispStep, if_pos hlen]
  · refine ⟨?_, fun h => absurd h hlen, fun _ => ⟨?_, ?_, fun hmem => ?_⟩⟩
    · simp only [dispStep, if_neg hlen]
      constructor
      · intro h
        exfalso
        by_cases hmem : shaHex (utf8Encode con) ∈ st.shas
        · rw [if_pos hmem] at h; exact h rfl
        · rw [if_neg hmem] at h; exact h rfl
      · intro h; exact absurd h hlen
    · simp only [dispStep, if_neg hlen]
      split <;> rfl
    · simp only [dispStep, if_neg hlen]
      by_cases hmem : shaHex (utf8Encode con) ∈ st.shas
      · rw [if_pos hmem]; exact hmem
      · rw [if_neg hmem]; simp
    · simp only [dispStep, if_neg hlen, if_neg hmem]

set_option maxRecDepth 40000 in
/-- C1, witness: the boundary inputs of the amended claim — 499 characters
are inlined, 500 characters take the artifact path. -/
theorem c1_witness :
    (List.replicate 499 'a' : PyStr).length < 500 ∧
    (dispStep shaHexConst iocNone ⟨[], [], []⟩
      (pys "9", pys "K", List.replicate 499 'a')).artifacts = [] ∧
    500 ≤ (longA : PyStr).length ∧
    (dispStep shaHexConst iocNone ⟨[], [], []⟩ (pys "9", pys "K", longA)).inlined = [] := by
  refine ⟨by decide, ?_, by decide, ?_⟩
  · exact ((c1_theorem shaHexConst iocNone ⟨[], [], []⟩ (pys "9") (pys "K")
      (List.replicate 499 'a')).2.1 (by decide)).1
  · exact ((c1_theorem shaHexConst iocNone ⟨[], [], []⟩ (pys "9") (pys "K")
      longA).2.2 (by decide)).1

/-! ## Claim C9 -/

/-- C9, counterexample.  The claim says the core imposes no size budget and
runs the full pipeline regardless of file size.  `execute` (line 726) skips
the whole analysis of a 3,000,000-byte file when deep scan is off, while a
smaller file is analyzed. -/
theorem c9_counterexample :
    executeRun defaultMaxPdfSize defaultMaxPdfSize false execEnvTrivial
      = some ExecOutcome.skippedTooBig ∧
    executeRun defaultMaxPdfSize 100 false execEnvTrivial
      = some (ExecOutcome.analyzed []) := by
  constructor <;> decide

/-- An `execute` run whose size gate passes never reports the too-big
skip. -/
theorem execNotSkipped (maxSize fileSize : Nat) (deep : Bool) (env : ExecEnv)
    (h : (decide (fileSize < maxSize) || deep) = true) :
    executeRun maxSize fileSize deep env ≠ some ExecOutcome.skippedTooBig := by
  unfold executeRun
  rw [if_pos h]
  by_cases hc : env.containsObjstms
  · rw [if_pos hc]
    cases ha : analyzeObjstm env.objstmParts env.wenv <;> simp [ha]
  · rw [if_neg hc]; simp

/-- C9, amended.  The core itself enforces a size budget: analysis is
skipped (with the too-big report section) exactly when the file size reaches
the configured `MAX_PDF_SIZE` (default 3,000,000 bytes) and deep-scan mode is
off; otherwise the pipeline runs on the document. -/
theorem c9_theorem (maxSize fileSize : Nat) (deep : Bool) (env : ExecEnv) :
    executeRun maxSize fileSize deep env = some ExecOutcome.skippedTooBig ↔
      (maxSize ≤ fileSize ∧ deep = false) := by
  constructor
  · intro h
    by_cases hg : (decide (fileSize < maxSize) || deep) = true
    · exact absurd h (execNotSkipped _ _ _ _ hg)
    · refine ⟨Nat.le_of_not_lt ?_, ?_⟩
      · intro hlt; exact hg (by simp [hlt])
      · cases hd : deep
        · rfl
        · exact absurd (by simp [hd]) hg
  · rintro ⟨h1, h2⟩
    subst h2
    unfold executeRun
    rw [if_neg (by simp [Nat.not_lt.mpr h1])]

/-- C9, witness. -/
theorem c9_witness :
    executeRun 10 10 false execEnvTrivial = some ExecOutcome.skippedTooBig :=
  (c9_theorem 10 10 false execEnvTrivial).mpr ⟨by omega, rfl⟩

/-! ## Claim C3 -/

/-- C3, counterexample.  The claim forbids an object number from being in
the extraction set and a carved-content key at the end of the triage loop.
Under `/OpenAction`, object 5 (no stream, literal content) is carved; under
`/AcroForm`, the hit resolves to object 7 whose declared type matches the
keyword, so all of object 7's references — object 5 among them — are queued
for extraction (lines 382-389).  No reconciliation follows: object 5 ends
the loop both extracted and carved. -/
theorem c3_counterexample :
    pys "5" ∈ extractOfRun (triageRun false tkeysC3 envC3) ∧
    pys "5" ∈ carvedKeysOfRun (triageRun false tkeysC3 envC3) := by
  decide

/-- The extraction fold over a referenced-object list leaves the carved map
and the JBIG2 set unchanged. -/
theorem foldExtract_carved (l : List PyStr) :
    ∀ st : TriState,
      ((l.foldl (fun s sr =>
          { s with extract := insSet ((pySplitN (pys " ") 1 sr).headD []) s.extract }) st).carved
        = st.carved) ∧
      ((l.foldl (fun s sr =>
          { s with extract := insSet ((pySplitN (pys " ") 1 sr).headD []) s.extract }) st).jbig
        = st.jbig) := by
  induction l with
  | nil => intro st; exact ⟨rfl, rfl⟩
  | cons sr rest ih =>
    intro st
    exact ih { st with extract := insSet ((pySplitN (pys " ") 1 sr).headD []) st.extract }

/-- C3, amended.  The extraction/carve exclusion holds only locally: the
processing of one structural-parser sub-report (`processSubPart`, lines
370-401) gives the object exactly one disposition — it never both extends the
extraction set and the carved map — but across keyword passes the two
accumulators are never reconciled, so their key sets may intersect. -/
theorem c3_theorem (kw details : PyStr) (st : TriState) (q : PyStr) :
    ((processSubPart kw details st q).1.extract ≠ st.extract →
      (processSubPart kw details st q).1.carved = st.carved) ∧
    ((processSubPart kw details st q).1.carved ≠ st.carved →
      (processSubPart kw details st q).1.extract = st.extract) ∧
    (processSubPart kw details st q).1.jbig = st.jbig := by
  unfold processSubPart
  cases h2 : (pySplitN (pys "\n") 3 q).get? 2 with
  | none => exact ⟨fun h => absurd rfl h, fun h => absurd rfl h, rfl⟩
  | some l2 =>
    cases h1 : (pySplitN (pys "\n") 2 q).get? 1 with
    | none => exact ⟨fun h => absurd rfl h, fun h => absurd rfl h, rfl⟩
    | some l1 =>
      simp only
      split
      · cases ho : objnumOf? q with
        | none => exact ⟨fun h => absurd rfl h, fun h => absurd rfl h, rfl⟩
        | some o => exact ⟨fun _ => rfl, fun h => absurd rfl h, rfl⟩
      · split
        · refine ⟨fun _ => ?_, fun h => ?_, ?_⟩
          · exact (foldExtract_carved _ st).1
          · exact absurd (foldExtract_carved _ st).1 h
          · exact (foldExtract_carved _ st).2
        · split
          · cases ho : objnumOf? q with
            | none => exact ⟨fun h => absurd rfl h, fun h => absurd rfl h, rfl⟩
            | some o => exact ⟨fun h => absurd rfl h, fun _ => rfl, rfl⟩
          · exact ⟨fun h => absurd rfl h, fun h => absurd rfl h, rfl⟩

/-- C3, witness: a stream-carrying sub-report extends the extraction set and
(by the amended theorem) leaves the carved map untouched. -/
theorem c3_witness :
    (processSubPart (pys "K") (pys "d") ⟨[], [], []⟩ qStream).1.extract ≠ [] ∧
    (processSubPart (pys "K") (pys "d") ⟨[], [], []⟩ qStream).1.carved = [] :=
  ⟨by decide, (c3_theorem (pys "K") (pys "d") ⟨[], [], []⟩ qStream).1 (by decide)⟩

/-! ## Claim C6 -/

/-- C6, counterexample.  The claim says an object matched under the
`JBIG2Decode` keyword is never added to the carved-content map.  The special
handling (line 323) additionally requires `/Filter` and `Contains stream` in
the report; a matched report carrying `/Filter` but no stream marker falls
through to the generic path and is carved (object 3 here), and the disjoint
JBIG2 set stays empty. -/
theorem c6_counterexample :
    carvedKeysOfRun (triageRun false [pys "JBIG2Decode"] envC6) = [pys "3"] ∧
    extractOfRun (triageRun false [pys "JBIG2Decode"] envC6) = [] ∧
    (triageRun false [pys "JBIG2Decode"] envC6).elim [] TriState.jbig = [] := by
  decide

/-- C6, amended.  For every non-trailer report matched under the
`JBIG2Decode` keyword whose text carries both a `/Filter` and a
`Contains stream` marker, the object is never carved: it is added to the
extraction set immediately only in deep-scan mode, it is always recorded in
the disjoint JBIG2 set, and the later full-structure extraction pass
subtracts that set (line 539), so no member of it is extracted there a
second time. -/
theorem c6_theorem (deep : Bool) (tkeys : List PyStr) (env : ObjEnv)
    (st st' : TriState) (p : PyStr)
    (hnt : pyStartsWith (pys "trailer:") p = false)
    (hf : isSubstr (pys "/Filter") p = true)
    (hs : isSubstr (pys "Contains stream") p = true)
    (hrun : processPart deep tkeys (pys "JBIG2Decode") env st p = some st') :
    st'.carved = st.carved ∧
    (∀ o, objnumOf? p = some o →
      st'.jbig = insSet o st.jbig ∧
      st'.extract = (if deep then insSet o st.extract else st.extract)) ∧
    (objnumOf? p = none → st' = st) ∧
    (∀ embed extr jb o, o ∈ jb → o ∉ objToExtract extr embed jb) := by
  have hsep : ∀ (embed extr jb : List PyStr) (o : PyStr),
      o ∈ jb → o ∉ objToExtract extr embed jb := by
    intro embed extr jb o hjb hmem
    rw [objToExtract, List.mem_filter] at hmem
    exact (of_decide_eq_true hmem.2).2 hjb
  simp only [processPart] at hrun
  split at hrun
  · rename_i heq
    rw [if_neg (by simp [hnt])] at heq
    by_cases hr : isSubstr (pys "Referencing:") p = true
    · rw [if_pos hr] at heq
      cases heq
    · rw [if_neg hr] at heq
      cases heq
  · split at hrun
    · split at hrun
      · rename_i o' ho
        cases hrun
        refine ⟨rfl, fun o h => ?_, fun h => ?_, hsep⟩
        · rw [ho] at h
          cases h
          exact ⟨rfl, rfl⟩
        · rw [ho] at h
          cases h
      · rename_i ho
        cases hrun
        refine ⟨rfl, fun o h => ?_, fun _ => rfl, hsep⟩
        rw [ho] at h
        cases h
    · rename_i hgd
      exact absurd ⟨trivial, hf, hs⟩ hgd

/-- C6, witness: the guarded report for container object 4 in deep-scan
mode. -/
theorem c6_witness :
    processPart true [] (pys "JBIG2Decode") objEnvTrivial ⟨[], [], []⟩ pJg
      = some ⟨[], [pys "4"], [pys "4"]⟩ ∧
    (⟨[], [pys "4"], [pys "4"]⟩ : TriState).carved = [] := by
  refine ⟨by decide, ?_⟩
  exact (c6_theorem true [] objEnvTrivial ⟨[], [], []⟩ ⟨[], [pys "4"], [pys "4"]⟩ pJg
    (by decide) (by decide) (by decide) (by decide)).1

/-! ## Claim C7 -/

/-- C7, counterexample.  The claim says a reference-shaped hit whose
resolution fails is never silently lost.  When the structural-parser
sub-query for the reference fails, `get_pdf_parser` swallows the exception
and returns `None` with an empty error list (lines 51-58), the `except`
fallback on lines 405-410 never fires, and the hit vanishes: report `pB`
(object 9, content `7 0 R`) leaves every accumulator empty — object 9 is not
extracted. -/
theorem c7_counterexample :
    triageRun false [pys "AcroForm"] envC7 = some ⟨[], [], []⟩ ∧
    pys "9" ∉ extractOfRun (triageRun false [pys "AcroForm"] envC7) := by
  decide

/-- C7, amended.  The fall-back extraction of the original object fires when
an exception escapes the per-hit processing — for instance a sub-report too
short for the `split("\n", 3)[2]` reference parse — not when the sub-query
itself returns no result (that hit is dropped after logging).  Under such a
malformed sub-report, the original report's object number is added to the
extraction set and nothing else changes. -/
theorem c7_theorem (tkeys : List PyStr) (kw : PyStr) (env : ObjEnv) (p : PyStr)
    (references : List PyStr) (st : TriState) (c q : PyStr) (sr : SubResp) (o : PyStr)
    (hnotjs : ¬((pys "JS") ∈ tkeys ∧ kw = pys "JavaScript" ∧
      isSubstr (pys "/JS") (c.take 5) = true))
    (href : c ∈ references ∨ refMatches c = true)
    (henv : env ((pySplitN (pys " ") 1 c).headD []) = (some sr, []))
    (hq : sr.parts = [q])
    (hbad : (pySplitN (pys "\n") 3 q).get? 2 = none)
    (ho : objnumOf? p = some o) :
    processItem tkeys kw env p references st c
      = some { st with extract := insSet o st.extract } := by
  unfold processItem
  rw [if_neg hnotjs, if_pos href, henv]
  simp only [hq, processSubParts, processSubPart, hbad]
  simp [fallbackExtract, ho]

/-- C7, witness: report `pB` with a one-line sub-report. -/
theorem c7_witness :
    processItem [] (pys "AcroForm")
        (fun o => if o = pys "7" then (some ⟨[qBad], pys "d"⟩, []) else (none, []))
        pB [pys "7 0 R"] ⟨[], [], []⟩ (pys "7 0 R")
      = some ⟨[], [pys "9"], []⟩ := by
  have h := c7_theorem [] (pys "AcroForm")
    (fun o => if o = pys "7" then (some ⟨[qBad], pys "d"⟩, []) else (none, []))
    pB [pys "7 0 R"] ⟨[], [], []⟩ (pys "7 0 R") qBad ⟨[qBad], pys "d"⟩ (pys "9")
    (by decide) (by decide) (by decide) rfl (by decide) (by decide)
  exact h

/-! ## Claim C8 -/

/-- C8.  When the short-name `JS` keyword is among the triage keywords, the
long-name `JavaScript` pass skips every content item whose first five
characters contain `/JS` (line 358), leaving the accumulators untouched; in
the double-report scenario — a `/JS` hit and a `/JavaScript` hit resolving to
the same object 5, the long-name content carrying the `/JS` prefix — the loop
records exactly one carved outcome for that object and queues nothing for
extraction. -/
theorem c8_theorem :
    (∀ (tkeys : List PyStr) (env : ObjEnv) (p : PyStr) (references : List PyStr)
        (st : TriState) (c : PyStr),
      (pys "JS") ∈ tkeys → isSubstr (pys "/JS") (c.take 5) = true →
      processItem tkeys (pys "JavaScript") env p references st c = some st) ∧
    triageRun false tkeysC8 envC8
      = some ⟨[(pys "5", [(pys "JS", pys "(code)")])], [], []⟩ := by
  constructor
  · intro tkeys env p references st c h1 h2
    unfold processItem
    rw [if_pos ⟨h1, rfl, h2⟩]
  · decide

/-- C8, witness. -/
theorem c8_witness :
    processItem [pys "JS"] (pys "JavaScript") objEnvTrivial (pys "p") [] ⟨[], [], []⟩
        (pys "/JS x")
      = some ⟨[], [], []⟩ :=
  c8_theorem.1 [pys "JS"] objEnvTrivial (pys "p") [] ⟨[], [], []⟩ (pys "/JS x")
    (by decide) (by decide)

/-! ## Claim C2 -/

/-- Appending one digest raises the count of `d` by one exactly when the new
digest is `d`. -/
theorem cntEq_append (l : List PyStr) (x d : PyStr) :
    cntEq (l ++ [x]) d = cntEq l d + (if x = d then 1 else 0) := by
  by_cases h : x = d <;> simp [cntEq, List.filter_append, h]

/-- Appending one artifact raises the byte count of `b` by one exactly when
the new bytes are `b`. -/
theorem cntBytes_append (l : List (PyStr × List Nat)) (n : PyStr) (x b : List Nat) :
    cntBytes (l ++ [(n, x)]) b = cntBytes l b + (if x = b then 1 else 0) := by
  by_cases h : x = b <;> simp [cntBytes, List.filter_append, h]

/-- A digest occurs in the list exactly when its count is positive. -/
theorem cntEq_pos_iff (l : List PyStr) (d : PyStr) : 0 < cntEq l d ↔ d ∈ l := by
  induction l with
  | nil => simp [cntEq]
  | cons a rest ih =>
    have hc : cntEq (a :: rest) d = cntEq rest d + (if a = d then 1 else 0) := by
      by_cases h : a = d <;> simp [cntEq, List.filter_cons, h]
    rw [hc]
    by_cases h : a = d
    · subst h
      simp
    · simp only [h, if_false, Nat.add_zero, ih, List.mem_cons]
      constructor
      · exact Or.inr
      · rintro (rfl | hm)
        · exact absurd rfl h
        · exact hm

/-- Invariant of the disposition loop: as long as the digest function is
injective on the encoded contents of the processed entries, the number of
artifacts holding the bytes `b` equals the number of recorded digests equal
to `shaHex b`, that number never exceeds one, and it reaches one as soon as
an artifact-path entry with bytes `b` has been processed. -/
theorem dispRun_dedup_aux (shaHex : List Nat → PyStr)
    (ioc : List Nat → List (PyStr × List PyStr))
    (entries : List (PyStr × PyStr × PyStr)) (b : List Nat)
    (hinj : ∀ e1 ∈ entries, ∀ e2 ∈ entries,
      shaHex (utf8Encode e1.2.2) = shaHex (utf8Encode e2.2.2) →
      utf8Encode e1.2.2 = utf8Encode e2.2.2)
    (hw : ∃ e ∈ entries, 500 ≤ e.2.2.length ∧ utf8Encode e.2.2 = b) :
    ∀ l : List (PyStr × PyStr × PyStr), (∀ e ∈ l, e ∈ entries) →
      ∀ st : DispState,
        cntBytes st.artifacts b = cntEq st.shas (shaHex b) →
        cntEq st.shas (shaHex b) ≤ 1 →
        cntBytes (l.foldl (dispStep shaHex ioc) st).artifacts b
            = cntEq (l.foldl (dispStep shaHex ioc) st).shas (shaHex b) ∧
        cntEq (l.foldl (dispStep shaHex ioc) st).shas (shaHex b) ≤ 1 ∧
        (((∃ e ∈ l, 500 ≤ e.2.2.length ∧ utf8Encode e.2.2 = b) ∨
            cntEq st.shas (shaHex b) = 1) →
          cntEq (l.foldl (dispStep shaHex ioc) st).shas (shaHex b) = 1) := by
  obtain ⟨ew, hew, hewlen, hewb⟩ := hw
  intro l
  induction l with
  | nil =>
    intro _ st h1 h2
    refine ⟨h1, h2, ?_⟩
    rintro (⟨e, he, _⟩ | hc)
    · cases he
    · exact hc
  | cons e rest ih =>
    intro hsub st h1 h2
    have hesub : e ∈ entries := hsub e (List.mem_cons_self e rest)
    have hrsub : ∀ x ∈ rest, x ∈ entries := fun x hx => hsub x (List.mem_cons_of_mem e hx)
    rw [List.foldl_cons]
    by_cases hlen : e.2.2.length < 500
    · have hart : (dispStep shaHex ioc st e).artifacts = st.artifacts := by
        simp [dispStep, hlen]
      have hsha : (dispStep shaHex ioc st e).shas = st.shas := by
        simp [dispStep, hlen]
      have hres := ih hrsub (dispStep shaHex ioc st e)
        (by rw [hart, hsha]; exact h1) (by rw [hsha]; exact h2)
      refine ⟨hres.1, hres.2.1, ?_⟩
      rintro (hex | hc)
      · apply hres.2.2
        rcases hex with ⟨e', he', h5, hb⟩
        rcases List.mem_cons.mp he' with rfl | hm
        · omega
        · exact Or.inl ⟨e', hm, h5, hb⟩
      · exact hres.2.2 (Or.inr (by rw [hsha]; exact hc))
    · by_cases hmem : shaHex (utf8Encode e.2.2) ∈ st.shas
      · have hid : dispStep shaHex ioc st e = st := by
          simp [dispStep, hlen, hmem]
        rw [hid]
        have hres := ih hrsub st h1 h2
        refine ⟨hres.1, hres.2.1, ?_⟩
        rintro (hex | hc)
        · rcases hex with ⟨e', he', h5, hb⟩
          rcases List.mem_cons.mp he' with rfl | hm
          · apply hres.2.2
            refine Or.inr ?_
            rw [hb] at hmem
            have hpos := (cntEq_pos_iff st.shas (shaHex b)).mpr hmem
            omega
          · exact hres.2.2 (Or.inl ⟨e', hm, h5, hb⟩)
        · exact hres.2.2 (Or.inr hc)
      · have hstep : dispStep shaHex ioc st e =
            { st with
                shas := st.shas ++ [shaHex (utf8Encode e.2.2)],
                artifacts := st.artifacts
                  ++ [(artifactName e.1 (shaHex (utf8Encode e.2.2)), utf8Encode e.2.2)] } := by
          simp [dispStep, hlen, hmem]
        have hiff : (shaHex (utf8Encode e.2.2) = shaHex b) ↔ (utf8Encode e.2.2 = b) := by
          constructor
          · intro hsh
            have heq := hinj e hesub ew hew (by rw [hsh, hewb])
            rw [heq, hewb]
          · intro hb
            rw [hb]
        have hart' : cntBytes (dispStep shaHex ioc st e).artifacts b
            = cntBytes st.artifacts b + (if utf8Encode e.2.2 = b then 1 else 0) := by
          rw [hstep]
          exact cntBytes_append st.artifacts _ _ b
        have hsha' : cntEq (dispStep shaHex ioc st e).shas (shaHex b)
            = cntEq st.shas (shaHex b)
              + (if shaHex (utf8Encode e.2.2) = shaHex b then 1 else 0) := by
          rw [hstep]
          exact cntEq_append st.shas _ _
        have hind : (if shaHex (utf8Encode e.2.2) = shaHex b then 1 else 0)
            = (if utf8Encode e.2.2 = b then 1 else 0) := by
          by_cases hx : utf8Encode e.2.2 = b
          · rw [if_pos hx, if_pos (hiff.mpr hx)]
          · rw [if_neg hx, if_neg (fun hsh => hx (hiff.mp hsh))]
        have h1' : cntBytes (dispStep shaHex ioc st e).artifacts b
            = cntEq (dispStep shaHex ioc st e).shas (shaHex b) := by
          rw [hart', hsha', hind, h1]
        have h2' : cntEq (dispStep shaHex ioc st e).shas (shaHex b) ≤ 1 := by
          rw [hsha']
          by_cases hx : shaHex (utf8Encode e.2.2) = shaHex b
          · rw [if_pos hx]
            have hz : cntEq st.shas (shaHex b) = 0 := by
              by_contra hnz
              have hmm := (cntEq_pos_iff st.shas (shaHex b)).mp (Nat.pos_of_ne_zero hnz)
              rw [← hx] at hmm
              exact hmem hmm
            omega
          · rw [if_neg hx]
            omega
        have hres := ih hrsub (dispStep shaHex ioc st e) h1' h2'
        refine ⟨hres.1, hres.2.1, ?_⟩
        rintro (hex | hc)
        · rcases hex with ⟨e', he', h5, hb⟩
          rcases List.mem_cons.mp he' with rfl | hm
          · apply hres.2.2
            refine Or.inr ?_
            rw [hsha', if_pos (hiff.mpr hb)]
            have hz : cntEq st.shas (shaHex b) = 0 := by
              by_contra hnz
              have hmm := (cntEq_pos_iff st.shas (shaHex b)).mp (Nat.pos_of_ne_zero hnz)
              rw [← hb] at hmm
              exact hmem hmm
            omega
          · exact hres.2.2 (Or.inl ⟨e', hm, h5, hb⟩)
        · apply hres.2.2
          refine Or.inr ?_
          rw [hsha']
          by_cases hx : shaHex (utf8Encode e.2.2) = shaHex b
          · exfalso
            have hmm := (cntEq_pos_iff st.shas (shaHex b)).mp (by omega)
            rw [← hx] at hmm
            exact hmem hmm
          · rw [if_neg hx]
            omega

/-- C2.  Within one disposition pass, if the digest function separates the
distinct encoded contents of the pass (SHA-256 treated as collision-free on
the document's carved values), then for every byte content `b` carried by at
least one artifact-path entry (at least 500 characters), exactly one artifact
with bytes `b` is written and exactly one matching digest is recorded,
regardless of the owning object numbers of the entries. -/
theorem c2_theorem (shaHex : List Nat → PyStr) (ioc : List Nat → List (PyStr × List PyStr))
    (entries : List (PyStr × PyStr × PyStr)) (b : List Nat)
    (hinj : ∀ e1 ∈ entries, ∀ e2 ∈ entries,
      shaHex (utf8Encode e1.2.2) = shaHex (utf8Encode e2.2.2) →
      utf8Encode e1.2.2 = utf8Encode e2.2.2)
    (hw : ∃ e ∈ entries, 500 ≤ e.2.2.length ∧ utf8Encode e.2.2 = b) :
    countArtifacts (dispRun shaHex ioc entries) b = 1 ∧
    countShas (dispRun shaHex ioc entries) (shaHex b) = 1 := by
  have haux := dispRun_dedup_aux shaHex ioc entries b hinj hw entries
    (fun e he => he) ⟨[], [], []⟩ rfl (by simp [cntEq])
  have hone := haux.2.2 (Or.inl hw)
  exact ⟨haux.1.trans hone, hone⟩

/-- C2, witness: two artifact-path entries with identical 500-character
contents under different object numbers produce one artifact and one
digest. -/
theorem c2_witness :
    countArtifacts (dispRun shaHexConst iocNone
      [(pys "1", pys "K", longA), (pys "2", pys "K", longA)]) (utf8Encode longA) = 1 ∧
    countShas (dispRun shaHexConst iocNone
      [(pys "1", pys "K", longA), (pys "2", pys "K", longA)])
      (shaHexConst (utf8Encode longA)) = 1 := by
  apply c2_theorem
  · intro e1 h1 e2 h2 _
    have c1 : e1.2.2 = longA := by
      rcases List.mem_cons.mp h1 with rfl | h1'
      · rfl
      · rcases List.mem_cons.mp h1' with rfl | h1''
        · rfl
        · cases h1''
    have c2 : e2.2.2 = longA := by
      rcases List.mem_cons.mp h2 with rfl | h2'
      · rfl
      · rcases List.mem_cons.mp h2' with rfl | h2''
        · rfl
        · cases h2''
    rw [c1, c2]
  · have hlen : longA.length = 500 := by simp only [longA, List.length_replicate]
    exact ⟨(pys "1", pys "K", longA), List.mem_cons_self _ _, hlen.ge, rfl⟩

/-! ## Claims C4, C5 and C10: the `analyze_objstm` driver -/

/-- A set insertion grows the list by at most one element. -/
theorem insSet_length (x : PyStr) (l : List PyStr) :
    (insSet x l).length ≤ l.length + 1 := by
  by_cases h : x ∈ l <;> simp [insSet, h]

/-- Membership after a set insertion. -/
theorem mem_insSet (x y : PyStr) (l : List PyStr) :
    y ∈ insSet x l ↔ y = x ∨ y ∈ l := by
  by_cases h : x ∈ l
  · simp only [insSet, if_pos h]
    constructor
    · exact Or.inr
    · rintro (rfl | hm)
      · exact h
      · exact hm
  · simp [insSet, if_neg h, List.mem_append, or_comm]

/-- One `analyze_objstm` step: the effect on the accumulators, split by the
shape of the part.  A part without the `/ObjStm` type marker changes
nothing; a marked part adds at most one event, one file and one extracted
object number, and it adds an event only when it is the first successful
reconstruction of its object number. -/
theorem objstmStep_cases (wenv : PyStr → Option WResp) (st st' : OState) (p : PyStr)
    (h : objstmStep wenv st p = some st') :
    (isSubstr (pys "Type: /ObjStm") p = false ∧ st' = st) ∨
    st' = st ∨
    (∃ getobj f, isSubstr (pys "Type: /ObjStm") p = true ∧ objnumOf? p = some getobj ∧
      getobj ∉ st.extracted ∧ writeObjstm (wenv getobj) = some (some f) ∧
      st' = ⟨insSet getobj st.extracted, insSet f st.files, st.events ++ [(getobj, f)]⟩) := by
  unfold objstmStep at h
  split at h
  · rename_i hobj
    split at h
    · cases h
    · rename_i getobj ho
      split at h
      · rename_i hmem
        cases h
        exact Or.inr (Or.inl rfl)
      · rename_i hmem
        split at h
        · cases h
        · cases h
          exact Or.inr (Or.inl rfl)
        · rename_i f hw
          cases h
          exact Or.inr (Or.inr ⟨getobj, f, hobj, ho, hmem, hw, rfl⟩)
  · rename_i hobj
    cases h
    exact Or.inl ⟨Bool.not_eq_true _ |>.mp hobj, rfl⟩

/-- Fold bound: each `/ObjStm`-typed part contributes at most one event and
one file. -/
theorem objstm_fold_count (wenv : PyStr → Option WResp) :
    ∀ (l : List PyStr) (st st' : OState),
      foldOpt (objstmStep wenv) st l = some st' →
      st'.events.length ≤ st.events.length
          + (l.filter (fun p => isSubstr (pys "Type: /ObjStm") p)).length ∧
      st'.files.length ≤ st.files.length
          + (l.filter (fun p => isSubstr (pys "Type: /ObjStm") p)).length := by
  intro l
  induction l with
  | nil =>
    intro st st' h
    cases h
    simp
  | cons p rest ih =>
    intro st st' h
    rw [foldOpt] at h
    cases hstep : objstmStep wenv st p with
    | none =>
      rw [hstep] at h
      cases h
    | some st1 =>
      rw [hstep] at h
      rcases objstmStep_cases wenv st st1 p hstep with ⟨hno, heq⟩ | heq | ⟨g, f, hm, _, _, _, heq⟩
      · rw [heq] at h
        rw [List.filter_cons_of_neg (by simp [hno])]
        exact ih st st' h
      · rw [heq] at h
        have hr := ih st st' h
        by_cases hf2 : isSubstr (pys "Type: /ObjStm") p = true
        · rw [List.filter_cons_of_pos (by simp [hf2])]
          refine ⟨?_, ?_⟩ <;> simp only [List.length_cons] <;> omega
        · rw [List.filter_cons_of_neg (by simp [hf2])]
          exact hr
      · rw [heq] at h
        rw [List.filter_cons_of_pos (by simp [hm])]
        have hr := ih _ st' h
        simp only [List.length_append, List.length_cons, List.length_nil] at hr
        have hb := insSet_length f st.files
        refine ⟨?_, ?_⟩ <;> simp only [List.length_cons] <;> omega

/-- Fold invariant: the object numbers of the reconstruction events are
distinct and all recorded as extracted. -/
theorem objstm_fold_nodup (wenv : PyStr → Option WResp) :
    ∀ (l : List PyStr) (st st' : OState),
      foldOpt (objstmStep wenv) st l = some st' →
      (st.events.map Prod.fst).Nodup →
      (∀ o ∈ st.events.map Prod.fst, o ∈ st.extracted) →
      (st'.events.map Prod.fst).Nodup ∧
        (∀ o ∈ st'.events.map Prod.fst, o ∈ st'.extracted) := by
  intro l
  induction l with
  | nil =>
    intro st st' h hn hs
    cases h
    exact ⟨hn, hs⟩
  | cons p rest ih =>
    intro st st' h hn hs
    rw [foldOpt] at h
    cases hstep : objstmStep wenv st p with
    | none =>
      rw [hstep] at h
      cases h
    | some st1 =>
      rw [hstep] at h
      rcases objstmStep_cases wenv st st1 p hstep with ⟨_, heq⟩ | heq | ⟨g, f, _, _, hnm, _, heq⟩
      · rw [heq] at h
        exact ih st st' h hn hs
      · rw [heq] at h
        exact ih st st' h hn hs
      · rw [heq] at h
        apply ih _ st' h
        · have hgn : g ∉ st.events.map Prod.fst := fun hin => hnm (hs g hin)
          simp only [List.map_append, List.map_cons, List.map_nil]
          rw [List.nodup_append]
          exact ⟨hn, List.nodup_singleton g, by simpa using hgn⟩
        · intro o ho
          simp only [List.map_append, List.map_cons, List.map_nil,
            List.mem_append, List.mem_singleton] at ho
          rcases ho with hin | hoe
          · exact (mem_insSet g o st.extracted).mpr (Or.inr (hs o hin))
          · exact (mem_insSet g o st.extracted).mpr (Or.inl hoe)

/-- Fold invariant: the events list only grows, and every file of the result
is witnessed by a reconstruction event. -/
theorem objstm_fold_files (wenv : PyStr → Option WResp) :
    ∀ (l : List PyStr) (st st' : OState),
      foldOpt (objstmStep wenv) st l = some st' →
      (∀ f ∈ st.files, ∃ e ∈ st.events, e.2 = f) →
      (∃ t, st'.events = st.events ++ t) ∧
        (∀ f ∈ st'.files, ∃ e ∈ st'.events, e.2 = f) := by
  intro l
  induction l with
  | nil =>
    intro st st' h hf
    cases h
    exact ⟨⟨[], by simp⟩, hf⟩
  | cons p rest ih =>
    intro st st' h hf
    rw [foldOpt] at h
    cases hstep : objstmStep wenv st p with
    | none =>
      rw [hstep] at h
      cases h
    | some st1 =>
      rw [hstep] at h
      rcases objstmStep_cases wenv st st1 p hstep with ⟨_, heq⟩ | heq | ⟨g, f, _, _, _, _, heq⟩
      · rw [heq] at h
        exact ih st st' h hf
      · rw [heq] at h
        exact ih st st' h hf
      · rw [heq] at h
        have hstep1 : ∀ f' ∈ insSet f st.files,
            ∃ e ∈ st.events ++ [(g, f)], e.2 = f' := by
          intro f' hf'
          rcases (mem_insSet f f' st.files).mp hf' with rfl | hin
          · exact ⟨(g, f'), by simp, rfl⟩
          · obtain ⟨e, he, hee⟩ := hf f' hin
            exact ⟨e, by simp [he], hee⟩
        have hr := ih _ st' h hstep1
        obtain ⟨t, ht⟩ := hr.1
        refine ⟨⟨(g, f) :: t, ?_⟩, hr.2⟩
        simpa using ht

/-- Fold invariant: every reconstruction event carries the file returned by
a successful `write_objstm` call for its container object. -/
theorem objstm_fold_events_spec (wenv : PyStr → Option WResp) :
    ∀ (l : List PyStr) (st st' : OState),
      foldOpt (objstmStep wenv) st l = some st' →
      (∀ e ∈ st.events, writeObjstm (wenv e.1) = some (some e.2)) →
      ∀ e ∈ st'.events, writeObjstm (wenv e.1) = some (some e.2) := by
  intro l
  induction l with
  | nil =>
    intro st st' h hs
    cases h
    exact hs
  | cons p rest ih =>
    intro st st' h hs
    rw [foldOpt] at h
    cases hstep : objstmStep wenv st p with
    | none =>
      rw [hstep] at h
      cases h
    | some st1 =>
      rw [hstep] at h
      rcases objstmStep_cases wenv st st1 p hstep with ⟨_, heq⟩ | heq | ⟨g, f, _, _, _, hwo, heq⟩
      · rw [heq] at h
        exact ih st st' h hs
      · rw [heq] at h
        exact ih st st' h hs
      · rw [heq] at h
        apply ih _ st' h
        intro e he
        rcases List.mem_append.mp he with hin | hone
        · exact hs e hin
        · rcases List.mem_singleton.mp hone with rfl
          exact hwo

/-- C4.  With the spec-modelled cap on the parser's answer to the
`max_objstm` query, one `analyze_objstm` invocation reconstructs at most
`maxObst deep` containers — at most 1 when deep scan is off, at most 100
when it is on — and hands at most that many nested documents to the
recursion. -/
theorem c4_theorem (deep : Bool) (parts0 : List PyStr) (wenv : PyStr → Option WResp)
    (ost : OState)
    (hcap : ParserHonorsCap (maxObst deep) parts0)
    (hrun : analyzeObjstm (some parts0) wenv = some ost) :
    ost.events.length ≤ maxObst deep ∧ ost.files.length ≤ maxObst deep := by
  unfold analyzeObjstm at hrun
  have hcnt := objstm_fold_count wenv _ _ _ hrun
  have hperm := (List.perm_insertionSort (fun a b => lexLe a b = true) parts0).filter
    (fun p => isSubstr (pys "Type: /ObjStm") p)
  have hlen := hperm.length_eq
  rw [ParserHonorsCap] at hcap
  simp only [List.length_nil] at hcnt
  constructor
  · calc ost.events.length
        ≤ 0 + ((parts0.insertionSort (fun a b => lexLe a b = true)).filter
            (fun p => isSubstr (pys "Type: /ObjStm") p)).length := hcnt.1
      _ = (parts0.filter (fun p => isSubstr (pys "Type: /ObjStm") p)).length := by
            rw [Nat.zero_add, hlen]
      _ ≤ maxObst deep := hcap
  · calc ost.files.length
        ≤ 0 + ((parts0.insertionSort (fun a b => lexLe a b = true)).filter
            (fun p => isSubstr (pys "Type: /ObjStm") p)).length := hcnt.2
      _ = (parts0.filter (fun p => isSubstr (pys "Type: /ObjStm") p)).length := by
            rw [Nat.zero_add, hlen]
      _ ≤ maxObst deep := hcap

/-- C4, witness: one container part in non-deep mode yields one
reconstruction, within the cap. -/
theorem c4_witness :
    (⟨[pys "8"], [pys "f8"], [(pys "8", pys "f8")]⟩ : OState).events.length ≤ maxObst false :=
  (c4_theorem false [part8] wenv8 ⟨[pys "8"], [pys "f8"], [(pys "8", pys "f8")]⟩
    (by unfold ParserHonorsCap; decide) (by decide)).1

/-- C10.  Each distinct container object number yields at most one
reconstructed nested document: the object numbers of the reconstruction
events of one `analyze_objstm` invocation are pairwise distinct, and every
returned file path comes from one of those events. -/
theorem c10_theorem (initParts : Option (List PyStr)) (wenv : PyStr → Option WResp)
    (ost : OState)
    (hrun : analyzeObjstm initParts wenv = some ost) :
    (ost.events.map Prod.fst).Nodup ∧ ∀ f ∈ ost.files, ∃ e ∈ ost.events, e.2 = f := by
  cases initParts with
  | none =>
    cases hrun
    exact ⟨List.nodup_nil, by simp⟩
  | some parts0 =>
    unfold analyzeObjstm at hrun
    have h1 := objstm_fold_nodup wenv _ _ _ hrun (by simp) (by simp)
    have h2 := objstm_fold_files wenv _ _ _ hrun (by simp)
    exact ⟨h1.1, h2.2⟩

/-- C10, witness: the same container part listed twice still yields a single
event. -/
theorem c10_witness :
    ((⟨[pys "8"], [pys "f8"], [(pys "8", pys "f8")]⟩ : OState).events.map Prod.fst).Nodup :=
  (c10_theorem (some [part8, part8]) wenv8 ⟨[pys "8"], [pys "f8"], [(pys "8", pys "f8")]⟩
    (by decide)).1

/-- C5.  A container whose raw-dump response marks no part as containing a
stream makes `write_objstm` return the no-document sentinel (`None`, not an
error), and the driver records no reconstruction event for that container —
it is never recursed into. -/
theorem c5_theorem (r : WResp)
    (hparts : ∀ q ∈ r.parts, ∃ seg, (pySplitN (pys "\n") 4 q).get? 3 = some seg ∧
      seg ≠ pys "Contains stream") :
    writeObjstm (some r) = some none ∧
    ∀ (initParts : Option (List PyStr)) (wenv : PyStr → Option WResp) (o : PyStr)
        (ost : OState),
      wenv o = some r → analyzeObjstm initParts wenv = some ost →
      o ∉ ost.events.map Prod.fst := by
  have hfold : ∀ (l : List PyStr),
      (∀ q ∈ l, ∃ seg, (pySplitN (pys "\n") 4 q).get? 3 = some seg ∧
        seg ≠ pys "Contains stream") →
      ∀ bb : Bool,
        foldOpt (fun b q =>
          match (pySplitN (pys "\n") 4 q).get? 3 with
          | none => none
          | some seg => some (b || seg = pys "Contains stream")) bb l = some bb := by
    intro l
    induction l with
    | nil => intro _ bb; rfl
    | cons q rest ih =>
      intro hl bb
      obtain ⟨seg, hseg, hne⟩ := hl q (List.mem_cons_self q rest)
      rw [foldOpt]
      simp only [hseg, decide_eq_false hne, Bool.or_false]
      exact ih (fun x hx => hl x (List.mem_cons_of_mem q hx)) bb
  have hw : writeObjstm (some r) = some none := by
    have hsf : streamFlag r.parts = some false := hfold r.parts hparts false
    simp only [writeObjstm, hsf]
  refine ⟨hw, ?_⟩
  intro initParts wenv o ost henv hrun hmem
  have hspec : ∀ e ∈ ost.events, writeObjstm (wenv e.1) = some (some e.2) := by
    cases initParts with
    | none =>
      cases hrun
      intro e he
      cases he
    | some parts0 =>
      unfold analyzeObjstm at hrun
      exact objstm_fold_events_spec wenv _ _ _ hrun (by intro e he; cases he)
  obtain ⟨e, he, heo⟩ := List.mem_map.mp hmem
  have hcontra := hspec e he
  rw [heo, henv, hw] at hcontra
  cases hcontra

/-- C5, witness: container 8's stream-free response is abandoned without an
event. -/
theorem c5_witness :
    writeObjstm (some rNoStream) = some none ∧
    pys "8" ∉ ((⟨[], [], []⟩ : OState).events.map Prod.fst) := by
  have hp : ∀ q ∈ rNoStream.parts, ∃ seg, (pySplitN (pys "\n") 4 q).get? 3 = some seg ∧
      seg ≠ pys "Contains stream" := by
    intro q hq
    rcases List.mem_cons.mp hq with rfl | h0
    · exact ⟨pys "No stream", by decide, by decide⟩
    · cases h0
  exact ⟨(c5_theorem rNoStream hp).1,
    (c5_theorem rNoStream hp).2 (some [part8]) wenv8No (pys "8") ⟨[], [], []⟩
      (by decide) (by decide)⟩

end PdfIdModel
